import Mathlib

/-!
Verification of `preprocess_pdfs.py` (davidprush/preprocess-pdfs).

The script converts each `*.pdf` in an input directory to per-page PNG
images (ImageMagick `convert`), runs Tesseract OCR on each image, and
either leaves one text file per page in the output directory or appends
every page's text to a single aggregate file.  It tracks per-run counters
(`success_count`, `fail_count`, `error_count`), a list
`files_with_errors`, and applies a retention policy (`--no-delete`,
`--keep-pdfs`, `--keep-pngs`) to the source PDFs and page images.

This file is a shallow embedding of the script's core loop
(`src/preprocess_pdfs.py`, lines 155-286) together with the helper
functions `log_print`, `delete_pdf`, `delete_png`, `handle_error` and
`append_to_single_file`.  The external tools (ImageMagick, Tesseract, the
filesystem) are modelled by per-run input data: for each document, whether
the `convert` invocation raised an exception, which page images the glob
found afterwards, and for each page whether the Tesseract invocation
raised, whether the expected text file exists afterwards, whether an
append to the aggregate file would succeed, and whether an `os.remove`
call would raise.  All file writes are recorded in the run state instead
of being performed.
-/

/-- The `--error-handling` option: `"exit"` or `"continue"`
(`src/preprocess_pdfs.py` line 135). -/
inductive ErrHandling where
  | exit : ErrHandling
  | cont : ErrHandling
deriving DecidableEq, Repr

/-- The resolved configuration consumed by the main loop: the retention
flags, the error-handling mode, whether `--single-file` was given, and the
`--quiet` flag (lines 144-153 of the script; directory paths are left
implicit because all paths in the model are relative names). -/
structure Config where
  quiet : Bool
  no_delete : Bool
  keep_pdfs : Bool
  keep_pngs : Bool
  error_handling : ErrHandling
  single_file : Bool
deriving DecidableEq, Repr

/-- Events observed while processing one page image.
`tessRaises`: the `subprocess.run(["tesseract", ...])` call itself raised
(line 234; `check=False`, so a failing tool does not raise — only a launch
failure does).  `textExists`: `os.path.isfile(temp_text_file)` after the
call (line 241).  `appendOk`: the `try` block of `append_to_single_file`
succeeds (lines 61-68).  `text`: the content of the page's text file.
`pngRemoveFails`: `os.remove(png_file)` raises (line 44). -/
structure PageEv where
  idx : Nat
  tessRaises : Bool
  textExists : Bool
  appendOk : Bool
  text : String
  pngRemoveFails : Bool
deriving DecidableEq, Repr

/-- Events observed while processing one discovered PDF document.
`convertRaises`: the `subprocess.run(["convert", ...])` call raised
(line 202).  `pages`: the page images found by the glob
`"{base_name}-[0-9]*.png"` (line 209), in glob order.
`pdfRemoveFails`: `os.remove(pdf_file)` raises (line 31). -/
structure DocEv where
  path : String
  stem : String
  convertRaises : Bool
  pages : List PageEv
  pdfRemoveFails : Bool
deriving DecidableEq, Repr

/-- One run's external events: whether creating the output directory
failed (lines 166-172), and the documents found by
`glob.glob(os.path.join(input_dir, "*.pdf"))` (line 178), in glob order. -/
structure World where
  mkdirFails : Bool
  docs : List DocEv
deriving DecidableEq, Repr

/-- The run state: the four global counters and `files_with_errors`
(lines 159-162), plus a record of the file-system effects the run
performed — the chunks appended to the `--single-file` aggregate (in
append order), the PDFs and PNGs actually removed, and the text files
present in the output directory. -/
structure St where
  success_count : Nat
  fail_count : Nat
  error_count : Nat
  files_with_errors : List String
  aggregate : List String
  deleted_pdfs : List String
  deleted_pngs : List String
  texts : List String
deriving DecidableEq, Repr

/-- The initial state (lines 159-162): all counters zero, all lists
empty. -/
def initSt : St := ⟨0, 0, 0, [], [], [], [], []⟩

/-- True when the string contains the literal marker `"Error:"`,
modelling Python's `"Error:" in message` (line 21). -/
def containsErrorMarker (m : String) : Bool :=
  1 < (m.splitOn "Error:").length

/-- `log_print(message, log_file, quiet)` (lines 18-22): always appends
`message + "\n"` to the log file, and prints to the terminal unless
`quiet` is set and the message does not contain `"Error:"`.  The result is
(lines appended to the log file, whether the message was printed). -/
def log_print (message : String) (quiet : Bool) : List String × Bool :=
  ([message ++ "\n"], !quiet || containsErrorMarker message)

/-- `delete_pdf(pdf_file, ..., no_delete, keep_pdfs)` (lines 25-35):
skips deletion when `no_delete or keep_pdfs`; otherwise attempts
`os.remove`, returning 1 on failure and 0 otherwise.  The result is
(the value added to `error_count`, whether the file was removed). -/
def delete_pdf (removeFails no_delete keep_pdfs : Bool) : Nat × Bool :=
  if no_delete || keep_pdfs then (0, false)
  else if removeFails then (1, false)
  else (0, true)

/-- `delete_png(png_file, ..., no_delete, keep_pngs)` (lines 38-48):
same shape as `delete_pdf` with the `keep_pngs` flag. -/
def delete_png (removeFails no_delete keep_pngs : Bool) : Nat × Bool :=
  if no_delete || keep_pngs then (0, false)
  else if removeFails then (1, false)
  else (0, true)

/-- A step of the script that may raise and is wrapped in
`try/except` with `handle_error` (lines 51-55, used at lines 168-172,
201-206 and 233-238): when the step raises, `handle_error` calls
`sys.exit(1)` in `"exit"` mode (modelled as `Except.error ()`), and in
`"continue"` mode the caller increments `error_count` and sets
`file_had_error`.  The result is (new `error_count`, whether this step
flagged an error). -/
def raiseStep (cfg : Config) (ec : Nat) (raises : Bool) : Except Unit (Nat × Bool) :=
  if raises then
    if cfg.error_handling = ErrHandling.exit then Except.error ()
    else Except.ok (ec + 1, true)
  else Except.ok (ec, false)

/-- `f"{base_name}-{d}"`: the stem of one page's image, as produced by
`convert ... "{base_name}-%d.png"` (line 202). -/
def pageBase (stem : String) (i : Nat) : String :=
  stem ++ "-" ++ toString i

/-- The block one successful append writes to the aggregate file
(lines 63-65): `"\n=== {pdf_file} ===\n"`, then the text file's content,
then `"\n"`. -/
def headerBlock (name : String) (text : String) : String :=
  "\n=== " ++ name ++ " ===\n" ++ text ++ "\n"

/-- `append_to_single_file(pdf_file, text_file, single_file, ...)`
(lines 58-71): on success writes the header block to the aggregate and
removes the temp file, returning the appended chunk; on an exception it
logs an error and returns `none` (the temp file survives).  The call
site passes `f"{page_base_name}.pdf"` as `pdf_file` (line 243). -/
def append_to_single_file (name : String) (text : String) (ok : Bool) : Option String :=
  if ok then some (headerBlock name text) else none

/-- The per-document loop variables: the global state, `page_success`,
`page_fail` (lines 225-226) and `file_had_error` (line 197). -/
structure PSt where
  st : St
  page_success : Nat
  page_fail : Nat
  file_had_error : Bool
deriving DecidableEq, Repr

/-- The body of `for png_file in png_files` (lines 227-257): run
Tesseract (a raised exception goes through `handle_error`); if the
expected text file exists, either append it to the single file (success
bumps `page_success`, failure bumps `page_fail` and sets
`file_had_error`) or leave it as a separate output file, then call
`delete_png` and re-check the `error_count > len(png_files) + 1`
heuristic (lines 252-254); if the text file is missing, bump
`page_fail`. -/
def processPage (cfg : Config) (numPngs : Nat) (stem : String) (a : PSt) (p : PageEv) :
    Except Unit PSt :=
  match raiseStep cfg a.st.error_count p.tessRaises with
  | Except.error e => Except.error e
  | Except.ok (ec1, raised) =>
    let a := { a with st := { a.st with error_count := ec1 },
                      file_had_error := a.file_had_error || raised }
    if p.textExists then
      let txt := pageBase stem p.idx ++ ".txt"
      let a :=
        if cfg.single_file then
          match append_to_single_file (pageBase stem p.idx ++ ".pdf") p.text p.appendOk with
          | some c =>
            { a with st := { a.st with aggregate := a.st.aggregate ++ [c] },
                     page_success := a.page_success + 1 }
          | none =>
            { a with st := { a.st with texts := a.st.texts ++ [txt] },
                     page_fail := a.page_fail + 1,
                     file_had_error := true }
        else
          { a with st := { a.st with texts := a.st.texts ++ [txt] },
                   page_success := a.page_success + 1 }
      let r := delete_png p.pngRemoveFails cfg.no_delete cfg.keep_pngs
      let a := { a with st :=
        { a.st with error_count := a.st.error_count + r.1,
                    deleted_pngs := a.st.deleted_pngs ++
                      (if r.2 then [pageBase stem p.idx ++ ".png"] else []) } }
      let a := if a.st.error_count > numPngs + 1 then { a with file_had_error := true } else a
      Except.ok a
    else
      Except.ok { a with page_fail := a.page_fail + 1 }

/-- Runs the page loop over the glob's page list in order. -/
def runPages (cfg : Config) (numPngs : Nat) (stem : String) (a : PSt) :
    List PageEv → Except Unit PSt
  | [] => Except.ok a
  | p :: ps =>
    match processPage cfg numPngs stem a p with
    | Except.error e => Except.error e
    | Except.ok a1 => runPages cfg numPngs stem a1 ps

/-- The body of `for pdf_file in pdf_files` (lines 195-270): run
`convert` (a raised exception goes through `handle_error`); if the glob
found no page images, bump `fail_count` and append the document to
`files_with_errors` only when `file_had_error` is not yet set
(lines 210-217), and skip the rest; otherwise call `delete_pdf`, apply
the `error_count > len(png_files) + 1` heuristic (lines 220-222), run the
page loop, then update the counters: all pages succeeded bumps
`success_count`, anything else bumps `fail_count` and appends the path
when `file_had_error` is unset (lines 260-267); finally the path is also
appended when `file_had_error` is set and it is not yet listed
(lines 269-270). -/
def processDoc (cfg : Config) (st : St) (d : DocEv) : Except Unit St :=
  match raiseStep cfg st.error_count d.convertRaises with
  | Except.error e => Except.error e
  | Except.ok (ec1, fhe0) =>
    let st := { st with error_count := ec1 }
    if d.pages.isEmpty then
      let st := { st with fail_count := st.fail_count + 1 }
      Except.ok (if fhe0 then st
                 else { st with files_with_errors := st.files_with_errors ++ [d.path] })
    else
      let numPngs := d.pages.length
      let r := delete_pdf d.pdfRemoveFails cfg.no_delete cfg.keep_pdfs
      let st := { st with error_count := st.error_count + r.1,
                          deleted_pdfs := st.deleted_pdfs ++ (if r.2 then [d.path] else []) }
      let fhe1 := fhe0 || decide (st.error_count > numPngs + 1)
      match runPages cfg numPngs d.stem ⟨st, 0, 0, fhe1⟩ d.pages with
      | Except.error e => Except.error e
      | Except.ok a =>
        let st := a.st
        let st :=
          if a.page_fail = 0 ∧ 0 < a.page_success then
            { st with success_count := st.success_count + 1 }
          else
            let st := { st with fail_count := st.fail_count + 1 }
            if a.file_had_error then st
            else { st with files_with_errors := st.files_with_errors ++ [d.path] }
        Except.ok (if a.file_had_error && !(st.files_with_errors.contains d.path) then
                     { st with files_with_errors := st.files_with_errors ++ [d.path] }
                   else st)

/-- Runs the document loop over the discovered documents in order. -/
def runDocs (cfg : Config) (st : St) : List DocEv → Except Unit St
  | [] => Except.ok st
  | d :: ds =>
    match processDoc cfg st d with
    | Except.error e => Except.error e
    | Except.ok st1 => runDocs cfg st1 ds

/-- How a run can end without reaching the normal end of the script:
`exitErr` is the `sys.exit(1)` inside `handle_error` (line 55);
`crash` is the uncaught `TypeError` raised in the empty-input-directory
branch, where line 183 passes the function `log_print` itself as the
`log_file` argument, so `open(log_file, "a")` inside `log_print`
receives a function object and raises — the remaining summary lines and
the `exit(0)` at line 192 are never reached, and the process dies with a
traceback (non-zero status). -/
inductive Halt where
  | exitErr : Halt
  | crash : Halt
deriving DecidableEq, Repr

/-- The whole run (lines 155-286): the output-directory step (a creation
failure goes through `handle_error` and then bumps `error_count`), the
empty-input check — whose summary block crashes at line 183 because the
function `log_print` is passed where the log-file path belongs — and the
document loop followed by the final summary.  `Except.ok st` means the
script fell through to the final summary (lines 276-286) and exited with
status 0. -/
def run (cfg : Config) (w : World) : Except Halt St :=
  match raiseStep cfg 0 w.mkdirFails with
  | Except.error _ => Except.error Halt.exitErr
  | Except.ok (ec0, _) =>
    let st0 : St := { initSt with error_count := ec0 }
    if w.docs.isEmpty then
      Except.error Halt.crash
    else
      match runDocs cfg st0 w.docs with
      | Except.error _ => Except.error Halt.exitErr
      | Except.ok st => Except.ok st

/-- `true` iff the run fell through to the final summary. -/
def completes (r : Except Halt St) : Bool :=
  match r with
  | Except.ok _ => true
  | Except.error _ => false

/-- The final state of a completed run (`initSt` for an aborted one). -/
def finalSt (r : Except Halt St) : St :=
  match r with
  | Except.ok st => st
  | Except.error _ => initSt

/-- A page counts as succeeded in the per-document tally (lines 241-249):
its text file exists and, in single-file mode, the append succeeded. -/
def pageSucceeds (cfg : Config) (p : PageEv) : Bool :=
  p.textExists && (!cfg.single_file || p.appendOk)

/-- A document is counted in `fail_count` (lines 210-217 and 260-265):
either the glob found no page images, or some page did not succeed. -/
def docFails (cfg : Config) (d : DocEv) : Bool :=
  d.pages.isEmpty || d.pages.any (fun p => !pageSucceeds cfg p)

/-- The chunks in the aggregate list that start with the header marker
written by `append_to_single_file` (line 63), compared character by
character. -/
def headerChunks (l : List String) : List String :=
  l.filter (fun c => List.isPrefixOf "\n=== ".data c.data)

/-! ## Concrete runs used below -/

/-- Continue-mode configuration, no retention flags, separate files. -/
def cfgCont : Config := ⟨false, false, false, false, ErrHandling.cont, false⟩

/-- Exit-mode configuration, no retention flags, separate files. -/
def cfgExit : Config := ⟨false, false, false, false, ErrHandling.exit, false⟩

/-- Continue-mode configuration with `--single-file`. -/
def cfgSingle : Config := ⟨false, false, false, false, ErrHandling.cont, true⟩

/-- A page whose OCR produces the expected text file and whose image
deletion succeeds. -/
def pageOk : PageEv := ⟨0, false, true, true, "T0", false⟩

/-- Exit mode, one document, one page that OCRs fine but whose PNG
deletion fails: a deletion failure in `"exit"` mode. -/
def worldC1 : World := ⟨false, [⟨"a.pdf", "a", false, [⟨0, false, true, true, "T0", true⟩], false⟩]⟩

/-- Two documents, one fully successful and one with zero page images. -/
def worldC3 : World := ⟨false, [⟨"a.pdf", "a", false, [pageOk], false⟩,
                               ⟨"b.pdf", "b", false, [], false⟩]⟩

/-- Directory creation fails, then a single document whose only page
OCRs fine while both the PDF and the PNG deletion fail: three recorded
errors, pushing `error_count` past `len(png_files) + 1 = 2`. -/
def worldC4 : World := ⟨true, [⟨"d.pdf", "d", false, [⟨0, false, true, true, "T0", true⟩], true⟩]⟩

/-- A document whose `convert` invocation raises and which produces zero
page images, in continue mode. -/
def worldC5 : World := ⟨false, [⟨"b.pdf", "b", true, [], false⟩]⟩

/-- Single-file mode: one document with pages 0, 1, 2, all of which OCR
and append successfully. -/
def worldC6 : World := ⟨false, [⟨"a.pdf", "a", false,
  [⟨0, false, true, true, "P0", false⟩, ⟨1, false, true, true, "P1", false⟩,
   ⟨2, false, true, true, "P2", false⟩], false⟩]⟩

/-- One document with one page and a failing PNG deletion, used as a
witness world. -/
def worldDel : World := ⟨false, [⟨"a.pdf", "a", false, [⟨0, false, true, true, "T0", true⟩], false⟩]⟩

/-- Extracts the state of a non-aborted document step. -/
def getOk (r : Except Unit St) : St :=
  match r with
  | Except.ok st => st
  | Except.error _ => initSt

/-- Extracts the loop state of a non-aborted page step. -/
def getPSt (r : Except Unit PSt) : PSt :=
  match r with
  | Except.ok a => a
  | Except.error _ => ⟨initSt, 0, 0, false⟩

/-- A fully successful one-page document. -/
def docA : DocEv := ⟨"a.pdf", "a", false, [pageOk], false⟩

/-- A zero-page document (rasterization produced nothing). -/
def docBroken : DocEv := ⟨"broken.pdf", "broken", false, [], false⟩

/-- The zero-page document of `worldC5b`. -/
def docZ : DocEv := ⟨"z.pdf", "z", false, [], false⟩

/-- A healthy document followed by a zero-page document, distinct
paths. -/
def worldC5b : World := ⟨false, [⟨"a.pdf", "a", false, [pageOk], false⟩, docZ]⟩

/-- A page whose OCR output exists but whose append to the aggregate
file fails. -/
def pageAppendFail : PageEv := ⟨0, false, true, false, "T0", false⟩

/-- One document whose `convert` invocation raises (and which therefore
produces no page images). -/
def worldConvRaise : World := ⟨false, [⟨"r.pdf", "r", true, [], false⟩]⟩

/-- One document whose only page's Tesseract invocation raises. -/
def worldTessRaise : World :=
  ⟨false, [⟨"t.pdf", "t", false, [⟨0, true, false, false, "", false⟩], false⟩]⟩

/-- The generic three-page document of C6: pages 0, 1, 2 with the given
texts, everything succeeding. -/
def docC6 (stem t0 t1 t2 : String) : DocEv :=
  ⟨stem ++ ".pdf", stem, false,
   [⟨0, false, true, true, t0, false⟩, ⟨1, false, true, true, t1, false⟩,
    ⟨2, false, true, true, t2, false⟩], false⟩

/-! ## Helper lemmas -/

theorem raiseStep_ok {cfg : Config} {ec : Nat} {raises : Bool} {x : Nat × Bool}
    (h : raiseStep cfg ec raises = Except.ok x) :
    x = (ec + (if raises then 1 else 0), raises) := by
  unfold raiseStep at h
  cases raises with
  | false => simpa using h.symm
  | true =>
    by_cases he : cfg.error_handling = ErrHandling.exit
    · simp [he] at h
    · simp [he] at h
      simpa using h.symm

theorem raiseStep_cont {cfg : Config} {ec : Nat} {raises : Bool}
    (h : cfg.error_handling = ErrHandling.cont) :
    raiseStep cfg ec raises = Except.ok (ec + (if raises then 1 else 0), raises) := by
  unfold raiseStep
  cases raises <;> simp [h]

theorem raiseStep_noRaise (cfg : Config) (ec : Nat) :
    raiseStep cfg ec false = Except.ok (ec, false) := rfl

/-! ## C2 — retention matrix -/

/-- C2: for every combination of the three retention flags, when the
`os.remove` call itself succeeds, the source PDF is removed iff
`no_delete = false` and `keep_pdfs = false`, and the page image is
removed iff `no_delete = false` and `keep_pngs = false`; in particular
`no_delete = true` keeps both kinds for any values of the other flags.
This is exactly the retention table of spec section 4.3. -/
theorem c2_retention_matrix (nd kp kg : Bool) :
    (delete_pdf false nd kp).2 = (!nd && !kp) ∧
    (delete_png false nd kg).2 = (!nd && !kg) := by
  cases nd <;> cases kp <;> cases kg <;> simp [delete_pdf, delete_png]

/-! ## C9 — log_print always writes to the log file -/

/-- C9: for every message and every quiet setting, `log_print` appends
the message (with a trailing newline) to the log file, and the terminal
print is suppressed exactly when `quiet` is set and the message does not
contain the literal `"Error:"` — the quiet flag never suppresses the
write to the log file. -/
theorem c9_log_print (m : String) (q : Bool) :
    (log_print m q).1 = [m ++ "\n"] ∧
    ((log_print m q).2 = false ↔ (q = true ∧ containsErrorMarker m = false)) := by
  refine ⟨rfl, ?_⟩
  cases q <;> cases h : containsErrorMarker m <;> simp [log_print, h]

/-! ## C8 — empty input directory (code bug at line 183) -/

/-- C8: with no PDF files in the input directory, the script enters the
summary branch at lines 179-192, but line 183 passes the function
`log_print` itself as the `log_file` argument, so `open(log_file, "a")`
raises `TypeError`; the exception is uncaught, the process dies with a
traceback (non-zero status) before the remaining summary lines and the
`exit(0)` at line 192.  The claimed behaviour (full summary, exit status
0, identical summaries across two runs) therefore never happens: the
empty-directory run crashes, for every configuration. -/
theorem c8_empty_dir_crashes (cfg : Config) :
    run cfg ⟨false, []⟩ = Except.error Halt.crash := rfl

/-! ## Counterexamples -/

/-- C1 counterexample: in `"exit"` mode, a deletion failure (the PNG of
the only page cannot be removed, `delete_png` returns 1) is a detected
error — `error_count` ends at 1 — yet the run completes normally and the
final summary is emitted.  The first detected error therefore does NOT
terminate the run when it is a deletion failure: `delete_pdf` and
`delete_png` (lines 25-48) log the error and return 1 without ever
calling `handle_error`, in every error-handling mode. -/
theorem c1_cex_deletion_error_does_not_abort :
    completes (run cfgExit worldC1) = true ∧
    (finalSt (run cfgExit worldC1)).error_count = 1 ∧
    (finalSt (run cfgExit worldC1)).success_count = 1 := ⟨rfl, rfl, rfl⟩

/-- C4 counterexample: the single document of `worldC4` has one
rasterized page whose OCR succeeds (no aggregation), so its outcome is
Success and `success_count` ends at 1 — but because the directory
creation failed and both deletions failed, the global `error_count`
reaches 3 > `len(png_files) + 1 = 2`, the heuristic at lines 252-254
sets `file_had_error`, and lines 269-270 append the successful document
to `files_with_errors`.  Processing the document does change
`failedDocuments`. -/
theorem c4_cex_success_doc_listed_as_failed :
    (finalSt (run cfgCont worldC4)).success_count = 1 ∧
    (finalSt (run cfgCont worldC4)).fail_count = 0 ∧
    (finalSt (run cfgCont worldC4)).files_with_errors = ["d.pdf"] := ⟨rfl, rfl, rfl⟩

/-- C5 counterexample: in continue mode a document whose `convert`
invocation raises and which produces zero page images is counted failed
(`fail_count = 1`), but the guard `if not file_had_error` at line 215
skips the append and the `continue` at line 217 skips lines 269-270, so
the failing document appears zero times in `files_with_errors` — not
exactly once as claimed. -/
theorem c5_cex_failing_doc_missing_from_list :
    (finalSt (run cfgCont worldC5)).fail_count = 1 ∧
    (finalSt (run cfgCont worldC5)).files_with_errors = [] := ⟨rfl, rfl⟩

/-- C6 counterexample: for a document whose pages 0, 1, 2 all OCR and
append successfully, the aggregate file receives three header lines —
one per page, each naming the pseudo-document `"a-<i>.pdf"` derived from
the page image's stem (line 243 passes `f"{page_base_name}.pdf"`) — not
exactly one header identifying the owning document `a.pdf`. -/
theorem c6_cex_one_header_per_page :
    (headerChunks (finalSt (run cfgSingle worldC6)).aggregate).length = 3 ∧
    (finalSt (run cfgSingle worldC6)).aggregate =
      ["\n=== a-0.pdf ===\nP0\n", "\n=== a-1.pdf ===\nP1\n", "\n=== a-2.pdf ===\nP2\n"] :=
  ⟨rfl, rfl⟩

/-- Effect of one page on the quantities the per-document tally reads:
the page loop never touches the document counters, `files_with_errors`
or `deleted_pdfs`, and bumps `page_fail` or `page_success` exactly as
`pageSucceeds` says. -/
theorem processPage_spec {cfg : Config} {numPngs : Nat} {stem : String} {a a1 : PSt} {p : PageEv}
    (h : processPage cfg numPngs stem a p = Except.ok a1) :
    a1.st.success_count = a.st.success_count ∧
    a1.st.fail_count = a.st.fail_count ∧
    a1.st.files_with_errors = a.st.files_with_errors ∧
    a1.st.deleted_pdfs = a.st.deleted_pdfs ∧
    a1.page_fail = a.page_fail + (if pageSucceeds cfg p then 0 else 1) ∧
    a1.page_success = a.page_success + (if pageSucceeds cfg p then 1 else 0) := by
  obtain ⟨i, tr, te, ao, tx, prf⟩ := p
  cases tr <;> cases te <;> cases ao <;>
    cases hsf : cfg.single_file <;> cases prf <;>
    cases heh : cfg.error_handling <;>
    simp_all [processPage, raiseStep, append_to_single_file, delete_png, pageSucceeds] <;>
    (try split at h) <;> (try subst h) <;> (try split) <;> simp

/-- A page that raises nowhere and deletes cleanly leaves `error_count`
alone, and leaves `file_had_error` alone as long as the global
`error_count` has not passed the `len(png_files) + 1` threshold. -/
theorem processPage_good {cfg : Config} {numPngs : Nat} {stem : String} {a a1 : PSt} {p : PageEv}
    (hle : a.st.error_count ≤ numPngs + 1)
    (htr : p.tessRaises = false) (hprf : p.pngRemoveFails = false)
    (hps : pageSucceeds cfg p = true)
    (h : processPage cfg numPngs stem a p = Except.ok a1) :
    a1.st.error_count = a.st.error_count ∧
    a1.file_had_error = a.file_had_error := by
  obtain ⟨i, tr, te, ao, tx, prf⟩ := p
  simp [pageSucceeds] at hps
  subst htr; subst hprf
  cases te <;> cases ao <;> cases hsf : cfg.single_file <;>
    cases hnd : cfg.no_delete <;> cases hkp : cfg.keep_pngs <;>
    simp_all [processPage, raiseStep, append_to_single_file, delete_png] <;>
    (try split at h) <;> (try subst h) <;> simp_all <;> omega

/-- A page whose Tesseract invocation does not raise never aborts the
run, whatever the error-handling mode. -/
theorem processPage_isOk {cfg : Config} {numPngs : Nat} {stem : String} {a : PSt} {p : PageEv}
    (htr : p.tessRaises = false) :
    ∃ a1, processPage cfg numPngs stem a p = Except.ok a1 := by
  obtain ⟨i, tr, te, ao, tx, prf⟩ := p
  subst htr
  cases te <;> cases ao <;> cases hsf : cfg.single_file <;>
    simp [processPage, raiseStep, append_to_single_file]

/-- Accumulation over the whole page loop: document counters,
`files_with_errors` and `deleted_pdfs` are untouched, `page_fail` and
`page_success` count the pages `pageSucceeds` rejects and accepts. -/
theorem runPages_spec {cfg : Config} {numPngs : Nat} {stem : String} :
    ∀ {ps : List PageEv} {a b : PSt},
    runPages cfg numPngs stem a ps = Except.ok b →
    b.st.success_count = a.st.success_count ∧
    b.st.fail_count = a.st.fail_count ∧
    b.st.files_with_errors = a.st.files_with_errors ∧
    b.st.deleted_pdfs = a.st.deleted_pdfs ∧
    b.page_fail = a.page_fail + ps.countP (fun p => !pageSucceeds cfg p) ∧
    b.page_success = a.page_success + ps.countP (fun p => pageSucceeds cfg p) := by
  intro ps
  induction ps with
  | nil =>
    intro a b h
    cases h
    simp [List.countP_nil]
  | cons p ps ih =>
    intro a b h
    unfold runPages at h
    cases hp : processPage cfg numPngs stem a p with
    | error e => rw [hp] at h; cases h
    | ok a1 =>
      rw [hp] at h
      obtain ⟨s1, f1, fw1, dp1, pf1, psc1⟩ := processPage_spec hp
      obtain ⟨s2, f2, fw2, dp2, pf2, psc2⟩ := ih h
      refine ⟨s2.trans s1, f2.trans f1, fw2.trans fw1, dp2.trans dp1, ?_, ?_⟩
      · rw [pf2, pf1, List.countP_cons]
        cases hps : pageSucceeds cfg p <;> simp [hps] <;> omega
      · rw [psc2, psc1, List.countP_cons]
        cases hps : pageSucceeds cfg p <;> simp [hps] <;> omega

/-- The page loop never aborts when no Tesseract invocation raises. -/
theorem runPages_isOk {cfg : Config} {numPngs : Nat} {stem : String} :
    ∀ {ps : List PageEv} {a : PSt}, (∀ p ∈ ps, p.tessRaises = false) →
    ∃ b, runPages cfg numPngs stem a ps = Except.ok b := by
  intro ps
  induction ps with
  | nil => intro a _; exact ⟨a, rfl⟩
  | cons p ps ih =>
    intro a hall
    obtain ⟨a1, hp⟩ := processPage_isOk (hall p (List.mem_cons_self p ps))
    obtain ⟨b, hb⟩ := ih (fun q hq => hall q (List.mem_cons_of_mem p hq))
    refine ⟨b, ?_⟩
    unfold runPages
    rw [hp]
    exact hb

/-- Over a loop of fully clean pages (no raise, clean deletion,
`pageSucceeds`), `error_count` and `file_had_error` are preserved, as
long as `error_count` starts at or below the threshold. -/
theorem runPages_good {cfg : Config} {numPngs : Nat} {stem : String} :
    ∀ {ps : List PageEv} {a b : PSt},
    a.st.error_count ≤ numPngs + 1 →
    (∀ p ∈ ps, p.tessRaises = false ∧ p.pngRemoveFails = false ∧ pageSucceeds cfg p = true) →
    runPages cfg numPngs stem a ps = Except.ok b →
    b.st.error_count = a.st.error_count ∧ b.file_had_error = a.file_had_error := by
  intro ps
  induction ps with
  | nil => intro a b _ _ h; cases h; exact ⟨rfl, rfl⟩
  | cons p ps ih =>
    intro a b hle hall h
    unfold runPages at h
    cases hp : processPage cfg numPngs stem a p with
    | error e => rw [hp] at h; cases h
    | ok a1 =>
      rw [hp] at h
      obtain ⟨h1, h2, h3⟩ := hall p (List.mem_cons_self p ps)
      obtain ⟨hec, hfe⟩ := processPage_good hle h1 h2 h3 hp
      obtain ⟨hec2, hfe2⟩ := ih (by rw [hec]; exact hle)
        (fun q hq => hall q (List.mem_cons_of_mem p hq)) h
      exact ⟨hec2.trans hec, hfe2.trans hfe⟩

/-- Effect of one document on the two outcome counters: every processed
document bumps exactly one of `success_count` and `fail_count`
(lines 210-217 bump `fail_count` for zero-page documents; lines 260-265
bump one of the two otherwise). -/
theorem processDoc_counters {cfg : Config} {st st1 : St} {d : DocEv}
    (h : processDoc cfg st d = Except.ok st1) :
    st1.success_count + st1.fail_count = st.success_count + st.fail_count + 1 := by
  unfold processDoc at h
  cases hr : raiseStep cfg st.error_count d.convertRaises with
  | error e => rw [hr] at h; cases h
  | ok x =>
    rw [hr] at h
    by_cases hemp : d.pages.isEmpty
    · simp only [hemp, if_true] at h
      split at h <;> (cases h; simp) <;> omega
    · simp only [hemp, if_false, Bool.false_eq_true] at h
      split at h
      · cases h
      · rename_i a hrp
        obtain ⟨hs, hf, hfw, hdp, hpf, hps⟩ := runPages_spec hrp
        split at h <;> split at h <;> (cases h; simp_all [apply_ite]) <;> omega

/-- One document extends `files_with_errors` by nothing or by exactly
its own path. -/
theorem processDoc_files {cfg : Config} {st st1 : St} {d : DocEv}
    (h : processDoc cfg st d = Except.ok st1) :
    st1.files_with_errors = st.files_with_errors ∨
    st1.files_with_errors = st.files_with_errors ++ [d.path] := by
  unfold processDoc at h
  cases hr : raiseStep cfg st.error_count d.convertRaises with
  | error e => rw [hr] at h; cases h
  | ok x =>
    rw [hr] at h
    by_cases hemp : d.pages.isEmpty
    · simp only [hemp, if_true] at h
      split at h <;> (cases h; simp)
    · simp only [hemp, if_false, Bool.false_eq_true] at h
      split at h
      · cases h
      · rename_i a hrp
        obtain ⟨hs, hf, hfw, hdp, hpf, hps⟩ := runPages_spec hrp
        split at h <;> split at h <;> (cases h; try split) <;> simp_all

/-- A failing document whose path is not yet listed ends up in
`files_with_errors` exactly once — except in the
conversion-exception-with-zero-pages case, where the guard at line 215
suppresses the append and the `continue` at line 217 skips lines
269-270, so the path is not recorded at all. -/
theorem processDoc_count_fail {cfg : Config} {st st1 : St} {d : DocEv}
    (hnotin : d.path ∉ st.files_with_errors)
    (hfail : docFails cfg d = true)
    (h : processDoc cfg st d = Except.ok st1) :
    st1.files_with_errors.count d.path =
      (if d.convertRaises && d.pages.isEmpty then 0 else 1) := by
  have hcount0 : st.files_with_errors.count d.path = 0 := List.count_eq_zero.mpr hnotin
  unfold processDoc at h
  cases hr : raiseStep cfg st.error_count d.convertRaises with
  | error e => rw [hr] at h; cases h
  | ok x =>
    have hx := raiseStep_ok hr
    have hx2 : x.2 = d.convertRaises := by rw [hx]
    rw [hr] at h
    by_cases hemp : d.pages.isEmpty
    · simp only [hemp, if_true] at h
      split at h <;> cases h <;> rename_i hcond
      · rw [hx2] at hcond
        simp [hcond, hemp, hcount0]
      · rw [hx2] at hcond
        simp only [Bool.not_eq_true] at hcond
        simp [hcond, hemp, List.count_append, hcount0]
    · have hany : d.pages.any (fun p => !pageSucceeds cfg p) = true := by
        have := hfail
        unfold docFails at this
        simpa [hemp] using this
      have hpos : 0 < d.pages.countP (fun p => !pageSucceeds cfg p) := by
        rw [List.countP_pos_iff]
        simpa using hany
      simp only [hemp, if_false, Bool.false_eq_true] at h
      split at h
      · cases h
      · rename_i a hrp
        obtain ⟨hs, hf, hfw, hdp, hpf, hps⟩ := runPages_spec hrp
        have hcontains : a.st.files_with_errors.contains d.path = false := by
          rw [hfw]; simpa using hnotin
        have hemp2 : d.pages.isEmpty = false := by
          simpa using hemp
        split at h
        · rename_i hcond
          exfalso
          obtain ⟨h1, h2⟩ := hcond
          rw [hpf] at h1
          omega
        · split at h <;> cases h <;> rename_i hfe
          · -- file_had_error set: line 266 skipped, line 269 appends
            simp [hemp2, hfe, hcontains, hnotin, List.count_append, hcount0, hfw]
          · -- file_had_error unset: line 266 appends, line 269 skipped
            simp [hemp2, hfe, hfw, hnotin, List.count_append, hcount0]

/-- A document with at least one page image, all of whose pages succeed,
bumps `success_count` by one, leaves `fail_count` alone, and leaves
`files_with_errors` unchanged except possibly for appending its own path
(which lines 269-270 do when `file_had_error` was set by the global
error heuristic). -/
theorem processDoc_success {cfg : Config} {st st1 : St} {d : DocEv}
    (hne : d.pages.isEmpty = false)
    (hall : ∀ p ∈ d.pages, pageSucceeds cfg p = true)
    (h : processDoc cfg st d = Except.ok st1) :
    st1.success_count = st.success_count + 1 ∧
    st1.fail_count = st.fail_count ∧
    (st1.files_with_errors = st.files_with_errors ∨
     st1.files_with_errors = st.files_with_errors ++ [d.path]) := by
  have hcz : d.pages.countP (fun p => !pageSucceeds cfg p) = 0 := by
    rw [List.countP_eq_zero]
    intro p hp
    simp [hall p hp]
  have hca : d.pages.countP (fun p => pageSucceeds cfg p) = d.pages.length := by
    rw [List.countP_eq_length]
    intro p hp
    exact hall p hp
  have hlen : 0 < d.pages.length := by
    cases hd : d.pages with
    | nil => rw [hd] at hne; simp at hne
    | cons q qs => simp [hd]
  unfold processDoc at h
  cases hr : raiseStep cfg st.error_count d.convertRaises with
  | error e => rw [hr] at h; cases h
  | ok x =>
    rw [hr] at h
    simp only [hne, if_false, Bool.false_eq_true] at h
    split at h
    · cases h
    · rename_i a hrp
      obtain ⟨hs, hf, hfw, hdp, hpf, hps⟩ := runPages_spec hrp
      split at h
      · split at h <;> cases h <;> simp_all
      · rename_i hcond
        exfalso
        apply hcond
        refine ⟨?_, ?_⟩
        · rw [hpf]; simpa using hcz
        · rw [hps, hca]; simpa using hlen

/-- When, additionally, nothing raises and every deletion succeeds and
the global `error_count` starts at or below `len(png_files) + 1`, the
fully successful document leaves `files_with_errors` strictly
unchanged. -/
theorem processDoc_success_clean {cfg : Config} {st st1 : St} {d : DocEv}
    (hne : d.pages.isEmpty = false)
    (hcr : d.convertRaises = false) (hpdf : d.pdfRemoveFails = false)
    (hall : ∀ p ∈ d.pages, p.tessRaises = false ∧ p.pngRemoveFails = false ∧
            pageSucceeds cfg p = true)
    (hec : st.error_count ≤ d.pages.length + 1)
    (h : processDoc cfg st d = Except.ok st1) :
    st1.files_with_errors = st.files_with_errors := by
  have hcz : d.pages.countP (fun p => !pageSucceeds cfg p) = 0 := by
    rw [List.countP_eq_zero]
    intro p hp
    simp [(hall p hp).2.2]
  have hdel : (delete_pdf d.pdfRemoveFails cfg.no_delete cfg.keep_pdfs).1 = 0 := by
    rw [hpdf]
    unfold delete_pdf
    split <;> simp
  unfold processDoc at h
  cases hr : raiseStep cfg st.error_count d.convertRaises with
  | error e => rw [hr] at h; cases h
  | ok x =>
    have hx := raiseStep_ok hr
    rw [hcr] at hx
    simp only [if_false, Bool.false_eq_true, Nat.add_zero] at hx
    rw [hr] at h
    simp only [hne, if_false, Bool.false_eq_true] at h
    split at h
    · cases h
    · rename_i a hrp
      obtain ⟨hs, hf, hfw, hdp, hpf, hps⟩ := runPages_spec hrp
      obtain ⟨hec2, hfe2⟩ := runPages_good (by simp [hx, hdel]; omega)
        (fun p hp => hall p hp) hrp
      have hfe3 : a.file_had_error = false := by
        rw [hfe2]
        simp only [hx, hdel, Nat.add_zero]
        rw [Bool.false_or, decide_eq_false_iff_not]
        omega
      split at h
      · split at h <;> cases h <;> simp_all
      · rename_i hcond
        exfalso
        apply hcond
        refine ⟨?_, ?_⟩
        · rw [hpf]; simpa using hcz
        · rw [hps]
          have : 0 < d.pages.countP (fun p => pageSucceeds cfg p) := by
            rw [List.countP_eq_length.mpr (fun p hp => (hall p hp).2.2)]
            cases hd : d.pages with
            | nil => rw [hd] at hne; simp at hne
            | cons q qs => simp [hd]
          omega

/-- The page loop aborts only when a Tesseract invocation raised. -/
theorem processPage_error {cfg : Config} {numPngs : Nat} {stem : String} {a : PSt} {p : PageEv}
    (h : processPage cfg numPngs stem a p = Except.error ()) :
    p.tessRaises = true := by
  by_cases htr : p.tessRaises = true
  · exact htr
  · simp only [Bool.not_eq_true] at htr
    obtain ⟨a1, ha⟩ := processPage_isOk htr
    rw [ha] at h
    cases h

/-- `handle_error` aborts only on a raised step in `"exit"` mode. -/
theorem raiseStep_error {cfg : Config} {ec : Nat} {raises : Bool}
    (h : raiseStep cfg ec raises = Except.error ()) :
    raises = true ∧ cfg.error_handling = ErrHandling.exit := by
  unfold raiseStep at h
  cases raises
  · simp at h
  · by_cases he : cfg.error_handling = ErrHandling.exit
    · exact ⟨rfl, he⟩
    · simp [he] at h

/-- A whole page loop aborts only when some page's Tesseract invocation
raised. -/
theorem runPages_error {cfg : Config} {numPngs : Nat} {stem : String} :
    ∀ {ps : List PageEv} {a : PSt},
    runPages cfg numPngs stem a ps = Except.error () →
    ∃ p ∈ ps, p.tessRaises = true := by
  intro ps
  induction ps with
  | nil => intro a h; cases h
  | cons p ps ih =>
    intro a h
    unfold runPages at h
    cases hp : processPage cfg numPngs stem a p with
    | error e =>
      cases e
      exact ⟨p, List.mem_cons_self p ps, processPage_error hp⟩
    | ok a1 =>
      rw [hp] at h
      obtain ⟨q, hq, hqr⟩ := ih h
      exact ⟨q, List.mem_cons_of_mem p hq, hqr⟩

/-- A document step aborts only when its `convert` invocation raised or
some page's Tesseract invocation raised. -/
theorem processDoc_error {cfg : Config} {st : St} {d : DocEv}
    (h : processDoc cfg st d = Except.error ()) :
    d.convertRaises = true ∨ ∃ p ∈ d.pages, p.tessRaises = true := by
  unfold processDoc at h
  cases hr : raiseStep cfg st.error_count d.convertRaises with
  | error e =>
    cases e
    exact Or.inl (raiseStep_error hr).1
  | ok x =>
    rw [hr] at h
    by_cases hemp : d.pages.isEmpty
    · simp only [hemp, if_true] at h
      split at h <;> cases h
    · simp only [hemp, if_false, Bool.false_eq_true] at h
      split at h
      · rename_i e hrp
        cases e
        exact Or.inr (runPages_error hrp)
      · rename_i a hrp
        split at h <;> (try split at h) <;> cases h

/-- The document loop aborts only when some document's `convert` or some
page's Tesseract invocation raised. -/
theorem runDocs_error {cfg : Config} :
    ∀ {ds : List DocEv} {st : St},
    runDocs cfg st ds = Except.error () →
    ∃ d ∈ ds, d.convertRaises = true ∨ ∃ p ∈ d.pages, p.tessRaises = true := by
  intro ds
  induction ds with
  | nil => intro st h; cases h
  | cons d ds ih =>
    intro st h
    unfold runDocs at h
    cases hd : processDoc cfg st d with
    | error e =>
      cases e
      exact ⟨d, List.mem_cons_self d ds, processDoc_error hd⟩
    | ok st1 =>
      rw [hd] at h
      obtain ⟨d2, hd2, hr2⟩ := ih h
      exact ⟨d2, List.mem_cons_of_mem d hd2, hr2⟩

/-- Accumulation of the two outcome counters over the document loop. -/
theorem runDocs_counters {cfg : Config} :
    ∀ {ds : List DocEv} {st st' : St},
    runDocs cfg st ds = Except.ok st' →
    st'.success_count + st'.fail_count = st.success_count + st.fail_count + ds.length := by
  intro ds
  induction ds with
  | nil => intro st st' h; cases h; simp
  | cons d ds ih =>
    intro st st' h
    unfold runDocs at h
    cases hd : processDoc cfg st d with
    | error e => rw [hd] at h; cases h
    | ok st1 =>
      rw [hd] at h
      have h1 := processDoc_counters hd
      have h2 := ih h
      simp only [List.length_cons]
      omega

/-- The document loop only ever appends the paths of the documents it
processes: the multiplicity of any other path is preserved. -/
theorem runDocs_count_other {cfg : Config} :
    ∀ {ds : List DocEv} {st st' : St} {q : String},
    runDocs cfg st ds = Except.ok st' →
    (∀ d ∈ ds, d.path ≠ q) →
    st'.files_with_errors.count q = st.files_with_errors.count q := by
  intro ds
  induction ds with
  | nil => intro st st' q h _; cases h; rfl
  | cons d ds ih =>
    intro st st' q h hne
    unfold runDocs at h
    cases hd : processDoc cfg st d with
    | error e => rw [hd] at h; cases h
    | ok st1 =>
      rw [hd] at h
      have h2 := ih h (fun d2 hd2 => hne d2 (List.mem_cons_of_mem d hd2))
      rw [h2]
      rcases processDoc_files hd with hsame | happ
      · rw [hsame]
      · rw [happ, List.count_append, List.count_singleton',
            if_neg (hne d (List.mem_cons_self d ds)), Nat.add_zero]

/-- Over the whole document loop, starting from a state that lists none
of the loop's paths, with all paths distinct: every failing document's
path ends with multiplicity exactly one in `files_with_errors` — except
a document whose `convert` raised and which produced zero pages, whose
path ends with multiplicity zero. -/
theorem runDocs_count {cfg : Config} :
    ∀ {ds : List DocEv} {st st' : St},
    runDocs cfg st ds = Except.ok st' →
    (ds.map DocEv.path).Nodup →
    (∀ d ∈ ds, d.path ∉ st.files_with_errors) →
    ∀ {d : DocEv}, d ∈ ds → docFails cfg d = true →
    st'.files_with_errors.count d.path =
      (if d.convertRaises && d.pages.isEmpty then 0 else 1) := by
  intro ds
  induction ds with
  | nil =>
    intro st st' h _ _ d hd
    cases hd
  | cons d0 ds ih =>
    intro st st' h hnd hnin d hd hfail
    have hnd2 : (∀ x ∈ ds, ¬x.path = d0.path) ∧ (ds.map DocEv.path).Nodup := by
      simpa using hnd
    unfold runDocs at h
    cases hd0 : processDoc cfg st d0 with
    | error e => rw [hd0] at h; cases h
    | ok st1 =>
      rw [hd0] at h
      rcases List.mem_cons.mp hd with rfl | hmem
      · have hc := processDoc_count_fail (hnin d (List.mem_cons_self d ds)) hfail hd0
        have hpres := runDocs_count_other h (fun d2 hd2 => hnd2.1 d2 hd2)
        rw [hpres, hc]
      · refine ih h hnd2.2 ?_ hmem hfail
        intro d2 hd2
        rcases processDoc_files hd0 with hsame | happ
        · rw [hsame]
          exact hnin d2 (List.mem_cons_of_mem d0 hd2)
        · rw [happ]
          intro hmem2
          rcases List.mem_append.mp hmem2 with hin | hin
          · exact hnin d2 (List.mem_cons_of_mem d0 hd2) hin
          · have : d2.path = d0.path := by simpa using hin
            exact hnd2.1 d2 hd2 this

/-! ## C3 — success + fail = number of documents -/

/-- C3: at the end of any completed (non-aborted) run,
`success_count + fail_count` equals the number of discovered PDF
documents — every document increments exactly one of the two counters,
exactly once (lines 210-217 and 259-265). -/
theorem c3_success_plus_fail_eq_docs {cfg : Config} {w : World} {st : St}
    (h : run cfg w = Except.ok st) :
    st.success_count + st.fail_count = w.docs.length := by
  unfold run at h
  cases hr : raiseStep cfg 0 w.mkdirFails with
  | error e => rw [hr] at h; cases h
  | ok x =>
    rw [hr] at h
    by_cases hemp : w.docs.isEmpty
    · simp [hemp] at h
    · simp only [hemp, if_false, Bool.false_eq_true] at h
      split at h
      · cases h
      · rename_i st2 hrd
        cases h
        have hsum := runDocs_counters hrd
        simpa [initSt] using hsum

/-- C3 witness: the two-document world `worldC3` (one full success, one
zero-page failure) completes with `success_count + fail_count = 2`. -/
theorem c3_witness :
    run cfgCont worldC3 = Except.ok (finalSt (run cfgCont worldC3)) ∧
    (finalSt (run cfgCont worldC3)).success_count +
      (finalSt (run cfgCont worldC3)).fail_count = worldC3.docs.length :=
  ⟨rfl, c3_success_plus_fail_eq_docs rfl⟩

/-! ## C7 — zero-page documents keep their PDF -/

/-- C7: for every configuration (hence regardless of the retention
flags), a document whose rasterization produced zero page images never
has its source PDF deleted — `delete_pdf` at line 220 sits after the
zero-PNG `continue` at line 217 — and `fail_count` increases by exactly
1 while `success_count` is untouched. -/
theorem c7_zero_pages_pdf_kept {cfg : Config} {st st1 : St} {d : DocEv}
    (hz : d.pages = [])
    (h : processDoc cfg st d = Except.ok st1) :
    st1.deleted_pdfs = st.deleted_pdfs ∧
    st1.fail_count = st.fail_count + 1 ∧
    st1.success_count = st.success_count := by
  unfold processDoc at h
  cases hr : raiseStep cfg st.error_count d.convertRaises with
  | error e => rw [hr] at h; cases h
  | ok x =>
    rw [hr] at h
    rw [hz] at h
    simp only [List.isEmpty_nil, if_true] at h
    split at h <;> cases h <;> simp

/-- C7 witness: the zero-page document `docBroken`, processed from the
initial state under `cfgCont` (whose retention flags all allow
deletion), keeps `deleted_pdfs` empty and bumps `fail_count` to 1. -/
theorem c7_witness :
    docBroken.pages = [] ∧
    processDoc cfgCont initSt docBroken =
      Except.ok (getOk (processDoc cfgCont initSt docBroken)) ∧
    (getOk (processDoc cfgCont initSt docBroken)).deleted_pdfs = initSt.deleted_pdfs ∧
    (getOk (processDoc cfgCont initSt docBroken)).fail_count = initSt.fail_count + 1 := by
  have hz : docBroken.pages = [] := rfl
  have h : processDoc cfgCont initSt docBroken =
      Except.ok (getOk (processDoc cfgCont initSt docBroken)) := rfl
  exact ⟨hz, h, (c7_zero_pages_pdf_kept hz h).1, (c7_zero_pages_pdf_kept hz h).2.1⟩

/-! ## C5 amended — failing documents appear at most once -/

/-- C5 amended: over any completed run whose discovered paths are
distinct, each failing document's path appears in `files_with_errors`
with multiplicity exactly one — except a document whose `convert`
invocation raised and which produced zero page images, which is counted
in `fail_count` but never appended (multiplicity zero); in particular no
failing document ever appears more than once. -/
theorem c5_amended_each_failing_doc_listed_at_most_once {cfg : Config} {w : World} {st : St}
    (h : run cfg w = Except.ok st)
    (hnd : (w.docs.map DocEv.path).Nodup)
    {d : DocEv} (hd : d ∈ w.docs) (hfail : docFails cfg d = true) :
    st.files_with_errors.count d.path =
      (if d.convertRaises && d.pages.isEmpty then 0 else 1) := by
  unfold run at h
  cases hr : raiseStep cfg 0 w.mkdirFails with
  | error e => rw [hr] at h; cases h
  | ok x =>
    rw [hr] at h
    by_cases hemp : w.docs.isEmpty
    · simp [hemp] at h
    · simp only [hemp, if_false, Bool.false_eq_true] at h
      split at h
      · cases h
      · rename_i st2 hrd
        cases h
        exact runDocs_count hrd hnd (fun d2 _ => by simp [initSt]) hd hfail

/-- C5 witness: in `worldC5b` the zero-page document `docZ` fails and
ends up listed exactly once. -/
theorem c5_witness :
    run cfgCont worldC5b = Except.ok (finalSt (run cfgCont worldC5b)) ∧
    (worldC5b.docs.map DocEv.path).Nodup ∧
    docZ ∈ worldC5b.docs ∧
    docFails cfgCont docZ = true ∧
    (finalSt (run cfgCont worldC5b)).files_with_errors.count docZ.path = 1 := by
  have h : run cfgCont worldC5b = Except.ok (finalSt (run cfgCont worldC5b)) := rfl
  have hnd : (worldC5b.docs.map DocEv.path).Nodup := by decide
  have hd : docZ ∈ worldC5b.docs := by decide
  have hfail : docFails cfgCont docZ = true := by decide
  refine ⟨h, hnd, hd, hfail, ?_⟩
  have := c5_amended_each_failing_doc_listed_at_most_once h hnd hd hfail
  simpa using this

/-! ## C4 amended — fully successful documents -/

/-- C4 amended: a document with at least one page image, all of whose
pages OCR (and, in aggregation mode, append) successfully, always bumps
`success_count` by exactly 1 and leaves `fail_count` alone; however
`files_with_errors` is only guaranteed unchanged when additionally
nothing raised, both deletions succeeded and the global `error_count`
entered at or below `len(png_files) + 1` — otherwise the heuristic at
lines 221-222 / 252-254 can set `file_had_error` and lines 269-270 then
append the successful document's path to `files_with_errors`. -/
theorem c4_amended_success_doc {cfg : Config} {st st1 : St} {d : DocEv}
    (hne : d.pages.isEmpty = false)
    (hall : ∀ p ∈ d.pages, pageSucceeds cfg p = true)
    (h : processDoc cfg st d = Except.ok st1) :
    st1.success_count = st.success_count + 1 ∧
    st1.fail_count = st.fail_count ∧
    (st1.files_with_errors = st.files_with_errors ∨
     st1.files_with_errors = st.files_with_errors ++ [d.path]) ∧
    (d.convertRaises = false → d.pdfRemoveFails = false →
     (∀ p ∈ d.pages, p.tessRaises = false ∧ p.pngRemoveFails = false) →
     st.error_count ≤ d.pages.length + 1 →
     st1.files_with_errors = st.files_with_errors) := by
  obtain ⟨h1, h2, h3⟩ := processDoc_success hne hall h
  refine ⟨h1, h2, h3, ?_⟩
  intro hcr hpdf hclean hec
  exact processDoc_success_clean hne hcr hpdf
    (fun p hp => ⟨(hclean p hp).1, (hclean p hp).2, hall p hp⟩) hec h

/-- C4 witness: the clean one-page document `docA` processed from the
initial state bumps `success_count` to 1 and leaves `files_with_errors`
empty. -/
theorem c4_witness :
    docA.pages.isEmpty = false ∧
    (∀ p ∈ docA.pages, pageSucceeds cfgCont p = true) ∧
    processDoc cfgCont initSt docA =
      Except.ok (getOk (processDoc cfgCont initSt docA)) ∧
    (getOk (processDoc cfgCont initSt docA)).success_count = initSt.success_count + 1 ∧
    (getOk (processDoc cfgCont initSt docA)).files_with_errors = initSt.files_with_errors := by
  have hne : docA.pages.isEmpty = false := rfl
  have hall : ∀ p ∈ docA.pages, pageSucceeds cfgCont p = true := by decide
  have h : processDoc cfgCont initSt docA =
      Except.ok (getOk (processDoc cfgCont initSt docA)) := rfl
  have hmain := c4_amended_success_doc hne hall h
  exact ⟨hne, hall, h, hmain.1,
    hmain.2.2.2 rfl rfl (by decide) (by decide)⟩

/-- In `"exit"` mode a page step can only return normally when its
Tesseract invocation did not raise: a raised invocation reaches
`handle_error`, which calls `sys.exit(1)`. -/
theorem processPage_exit_ok {cfg : Config} {numPngs : Nat} {stem : String} {a a1 : PSt}
    {p : PageEv} (hex : cfg.error_handling = ErrHandling.exit)
    (h : processPage cfg numPngs stem a p = Except.ok a1) :
    p.tessRaises = false := by
  by_cases htr : p.tessRaises = true
  · exfalso
    unfold processPage at h
    rw [htr] at h
    have hr : raiseStep cfg a.st.error_count true = Except.error () := by
      simp [raiseStep, hex]
    rw [hr] at h
    cases h
  · simpa using htr

/-- In `"exit"` mode a completed page loop had no raising page. -/
theorem runPages_exit_ok {cfg : Config} {numPngs : Nat} {stem : String}
    (hex : cfg.error_handling = ErrHandling.exit) :
    ∀ {ps : List PageEv} {a b : PSt},
    runPages cfg numPngs stem a ps = Except.ok b →
    ∀ p ∈ ps, p.tessRaises = false := by
  intro ps
  induction ps with
  | nil => intro a b _ p hp; cases hp
  | cons q qs ih =>
    intro a b h p hp
    unfold runPages at h
    cases hq : processPage cfg numPngs stem a q with
    | error e => rw [hq] at h; cases h
    | ok a1 =>
      rw [hq] at h
      rcases List.mem_cons.mp hp with rfl | hmem
      · exact processPage_exit_ok hex hq
      · exact ih h p hmem

/-- In `"exit"` mode a document step can only return normally when its
`convert` invocation and all of its pages' Tesseract invocations did
not raise. -/
theorem processDoc_exit_ok {cfg : Config} {st st1 : St} {d : DocEv}
    (hex : cfg.error_handling = ErrHandling.exit)
    (h : processDoc cfg st d = Except.ok st1) :
    d.convertRaises = false ∧ ∀ p ∈ d.pages, p.tessRaises = false := by
  have hcr : d.convertRaises = false := by
    by_cases hc : d.convertRaises = true
    · exfalso
      unfold processDoc at h
      rw [hc] at h
      have hr : raiseStep cfg st.error_count true = Except.error () := by
        simp [raiseStep, hex]
      rw [hr] at h
      cases h
    · simpa using hc
  refine ⟨hcr, ?_⟩
  unfold processDoc at h
  cases hr : raiseStep cfg st.error_count d.convertRaises with
  | error e => rw [hr] at h; cases h
  | ok x =>
    rw [hr] at h
    by_cases hemp : d.pages.isEmpty
    · intro p hp
      cases hl : d.pages with
      | nil => rw [hl] at hp; cases hp
      | cons q qs => rw [hl] at hemp; simp at hemp
    · simp only [hemp, if_false, Bool.false_eq_true] at h
      split at h
      · cases h
      · rename_i a hrp
        exact runPages_exit_ok hex hrp

/-- In `"exit"` mode a completed document loop had no raising step
anywhere. -/
theorem runDocs_exit_ok {cfg : Config}
    (hex : cfg.error_handling = ErrHandling.exit) :
    ∀ {ds : List DocEv} {st st' : St},
    runDocs cfg st ds = Except.ok st' →
    ∀ d ∈ ds, d.convertRaises = false ∧ ∀ p ∈ d.pages, p.tessRaises = false := by
  intro ds
  induction ds with
  | nil => intro st st' _ d hd; cases hd
  | cons d0 ds ih =>
    intro st st' h d hd
    unfold runDocs at h
    cases hd0 : processDoc cfg st d0 with
    | error e => rw [hd0] at h; cases h
    | ok st1 =>
      rw [hd0] at h
      rcases List.mem_cons.mp hd with rfl | hmem
      · exact processDoc_exit_ok hex hd0
      · exact ih h d hmem

/-! ## C1 amended — what aborts in exit mode -/

/-- C1 amended: in `"exit"` mode, the errors that go through
`handle_error` — a directory-creation failure, a raised `convert`
invocation, a raised `tesseract` invocation — terminate the run
immediately with `sys.exit(1)` and no final summary: whenever any of
them occurs anywhere in the run's input, the run ends in
`Except.error Halt.exitErr`.  Conversely, when the output directory step
and every `convert` and `tesseract` invocation return without raising,
the run always completes and emits its summary — even when it detects
deletion failures, missing OCR output, zero-page rasterizations or
aggregation-write failures, because none of those paths ever call
`handle_error` (lines 25-48, 210-217, 241-257). -/
theorem c1_amended_only_raises_abort {cfg : Config} {w : World}
    (hex : cfg.error_handling = ErrHandling.exit) :
    ((w.mkdirFails = true ∨
      ∃ d ∈ w.docs, d.convertRaises = true ∨ ∃ p ∈ d.pages, p.tessRaises = true) →
     run cfg w = Except.error Halt.exitErr) ∧
    (w.mkdirFails = false → w.docs ≠ [] →
     (∀ d ∈ w.docs, d.convertRaises = false ∧ ∀ p ∈ d.pages, p.tessRaises = false) →
     completes (run cfg w) = true) := by
  constructor
  · intro hbad
    rcases hbad with hm | ⟨d, hd, hbad2⟩
    · unfold run raiseStep
      rw [hm, hex]
      simp
    · have hne2 : w.docs.isEmpty = false := by
        cases hl : w.docs with
        | nil => rw [hl] at hd; cases hd
        | cons a l => simp [hl]
      unfold run
      cases hr : raiseStep cfg 0 w.mkdirFails with
      | error e => rfl
      | ok x =>
        obtain ⟨ec0, b0⟩ := x
        simp only [hne2, Bool.false_eq_true, if_false]
        split
        · rfl
        · rename_i st2 hrd
          exfalso
          have hnr := runDocs_exit_ok hex hrd d hd
          rcases hbad2 with hcr | ⟨p, hp, hpr⟩
          · rw [hnr.1] at hcr
            cases hcr
          · rw [hnr.2 p hp] at hpr
            cases hpr
  · intro hm hne hall
    unfold run
    rw [hm, raiseStep_noRaise]
    have hne2 : w.docs.isEmpty = false := by
      cases hd : w.docs with
      | nil => exact absurd hd hne
      | cons a l => simp [hd]
    simp only [hne2, Bool.false_eq_true, if_false]
    split
    · rename_i e heq
      cases e
      exfalso
      obtain ⟨d2, hd2, hbad⟩ := runDocs_error heq
      rcases hbad with hcr | ⟨p, hp, hpr⟩
      · rw [(hall d2 hd2).1] at hcr
        cases hcr
      · rw [(hall d2 hd2).2 p hp] at hpr
        cases hpr
    · rfl

/-- C1 witness: with exit-mode configuration, a directory-creation
failure, a raised `convert` invocation and a raised `tesseract`
invocation each abort the run at once with no summary, while a world
whose only error is a PNG deletion failure runs to completion and emits
the summary. -/
theorem c1_witness :
    run cfgExit ⟨true, []⟩ = Except.error Halt.exitErr ∧
    run cfgExit worldConvRaise = Except.error Halt.exitErr ∧
    run cfgExit worldTessRaise = Except.error Halt.exitErr ∧
    completes (run cfgExit worldDel) = true := by
  refine ⟨?_, ?_, ?_, ?_⟩
  · exact (c1_amended_only_raises_abort rfl).1 (Or.inl rfl)
  · exact (c1_amended_only_raises_abort rfl).1 (by decide)
  · exact (c1_amended_only_raises_abort rfl).1 (by decide)
  · exact (c1_amended_only_raises_abort rfl).2 rfl (by decide) (by decide)

/-! ## C6 amended — per-page headers in the aggregate -/

/-- C6 amended: in single-file aggregation mode, a document whose pages
0, 1, 2 all OCR and append successfully contributes three blocks to the
aggregate file, in page-index order with nothing interleaved — but each
block carries its own header, and the header names the pseudo-document
`"<stem>-<pageIndex>.pdf"` built from the page image's stem (line 243),
not the owning document: there is one header per page, not one per
document. -/
theorem c6_amended_per_page_headers (stem t0 t1 t2 : String) :
    (finalSt (run cfgSingle ⟨false, [docC6 stem t0 t1 t2]⟩)).aggregate =
      [headerBlock (pageBase stem 0 ++ ".pdf") t0,
       headerBlock (pageBase stem 1 ++ ".pdf") t1,
       headerBlock (pageBase stem 2 ++ ".pdf") t2] := rfl

/-! ## C10 — append failure still routes the PNG to deletion -/

/-- C10: in single-file mode, when a page's OCR output exists but the
append to the aggregate file fails, the page is counted as failed
(`page_fail` + 1, line 246), its temporary text file survives in the
output directory (`append_to_single_file` only removes it on success,
line 67), and the page's PNG is still passed to `delete_png`
(line 252 sits outside the append branch), producing exactly the same
deletion outcome as if the append had succeeded. -/
theorem c10_append_failure_png_still_deleted {cfg : Config} {numPngs : Nat} {stem : String}
    {a a1 b1 : PSt} {p : PageEv}
    (hsf : cfg.single_file = true) (hte : p.textExists = true)
    (hao : p.appendOk = false) (htr : p.tessRaises = false)
    (h1 : processPage cfg numPngs stem a p = Except.ok a1)
    (h2 : processPage cfg numPngs stem a { p with appendOk := true } = Except.ok b1) :
    a1.page_fail = a.page_fail + 1 ∧
    (pageBase stem p.idx ++ ".txt") ∈ a1.st.texts ∧
    a1.st.deleted_pngs = b1.st.deleted_pngs := by
  obtain ⟨i, tr, te, ao, tx, prf⟩ := p
  subst htr; subst hte; subst hao
  cases prf <;>
    cases hnd : cfg.no_delete <;> cases hkp : cfg.keep_pngs <;>
    simp_all [processPage, raiseStep, append_to_single_file, delete_png] <;>
    (try subst h1) <;> (try split at h2) <;> (try subst h2) <;> simp_all

/-- C10 witness: the concrete failing-append page `pageAppendFail`
against the same page with a successful append. -/
theorem c10_witness :
    (getPSt (processPage cfgSingle 1 "a" ⟨initSt, 0, 0, false⟩ pageAppendFail)).page_fail =
      (⟨initSt, 0, 0, false⟩ : PSt).page_fail + 1 ∧
    (pageBase "a" pageAppendFail.idx ++ ".txt") ∈
      (getPSt (processPage cfgSingle 1 "a" ⟨initSt, 0, 0, false⟩ pageAppendFail)).st.texts ∧
    (getPSt (processPage cfgSingle 1 "a" ⟨initSt, 0, 0, false⟩ pageAppendFail)).st.deleted_pngs =
      (getPSt (processPage cfgSingle 1 "a" ⟨initSt, 0, 0, false⟩
        { pageAppendFail with appendOk := true })).st.deleted_pngs := by
  have h1 : processPage cfgSingle 1 "a" ⟨initSt, 0, 0, false⟩ pageAppendFail =
      Except.ok (getPSt (processPage cfgSingle 1 "a" ⟨initSt, 0, 0, false⟩
        pageAppendFail)) := rfl
  have h2 : processPage cfgSingle 1 "a" ⟨initSt, 0, 0, false⟩
      { pageAppendFail with appendOk := true } =
      Except.ok (getPSt (processPage cfgSingle 1 "a" ⟨initSt, 0, 0, false⟩
        { pageAppendFail with appendOk := true })) := rfl
  exact c10_append_failure_png_still_deleted rfl rfl rfl rfl h1 h2
